import Mathlib

/-!
Shallow embedding of `src/tools/offsetpreload.c` (apptainer): an LD_PRELOAD
interposer that adds a configured byte offset to `pread64`/`pwrite64` calls
made on the file descriptor most recently obtained by opening the path given
in `OFFSETPRELOAD_FILE`, where the offset is parsed from
`OFFSETPRELOAD_OFFSET` with `atoi`.

The static variables `offsetfd`, `offsetval` and `offsetpath` become the
fields of `St`; the process environment becomes `Env`; the delegate
("original") implementations that `dlsym(RTLD_NEXT, ...)` resolves are
modelled as explicit function parameters, since the layer treats them as
opaque.  Machine integers (`int`, `off_t`, `long`) are modelled as `Int`,
with the 32-bit reduction performed by `atoi`'s `long`-to-`int` conversion
made explicit in `toInt32`.

`atoi` is glibc's `(int) strtol(s, NULL, 10)`: skip leading whitespace, an
optional sign, then the maximal run of decimal digits (an empty run parses
as 0 with no error); values out of `long` range saturate to
`LONG_MAX`/`LONG_MIN`; the final conversion to `int` reduces modulo `2^32`
into the signed 32-bit range.
-/

namespace OffsetPreload

/-- C `isspace` in the POSIX locale, as used by `strtol`. -/
def isSpaceC (c : Char) : Bool :=
  c = ' ' || c = '\t' || c = '\n' || c = '\x0b' || c = '\x0c' || c = '\r'

/-- Decimal digit test, as used by `strtol`. -/
def isDigitC (c : Char) : Bool :=
  '0' ≤ c && c ≤ '9'

/-- Value of the maximal leading run of decimal digits (most significant
first), starting from accumulator `acc`; `strtol`'s digit loop. -/
def digitsToNat : List Char → Nat → Nat
  | [], acc => acc
  | c :: cs, acc =>
      if isDigitC c then digitsToNat cs (acc * 10 + (c.toNat - 48)) else acc

/-- Skip the leading whitespace, as `strtol` does. -/
def dropSpaces : List Char → List Char
  | [] => []
  | c :: cs => if isSpaceC c then dropSpaces cs else c :: cs

/-- Consume an optional sign character; returns (negative?, rest). -/
def signSplit : List Char → Bool × List Char
  | '-' :: cs => (true, cs)
  | '+' :: cs => (false, cs)
  | cs => (false, cs)

/-- The exact mathematical value denoted by the longest parseable prefix of
`s` (whitespace, optional sign, digit run), with no range reduction. -/
def decValue (s : String) : Int :=
  let t := signSplit (dropSpaces s.data)
  let n : Int := Int.ofNat (digitsToNat t.2 0)
  if t.1 then -n else n

/-- `LONG_MAX` on the 64-bit platforms this tool targets. -/
def longMax : Int := 2 ^ 63 - 1

/-- `LONG_MIN` on the 64-bit platforms this tool targets. -/
def longMin : Int := -(2 ^ 63)

/-- `strtol`'s range behavior: out-of-range values saturate to the bounds. -/
def clampLong (v : Int) : Int :=
  if v > longMax then longMax else if v < longMin then longMin else v

/-- glibc `strtol(s, NULL, 10)` on a 64-bit platform. -/
def strtol10 (s : String) : Int := clampLong (decValue s)

/-- The implementation-defined `long`-to-`int` conversion (two's complement
reduction modulo `2^32` into `[-2^31, 2^31)`), as gcc/glibc perform it. -/
def toInt32 (v : Int) : Int := (v + 2 ^ 31) % 2 ^ 32 - 2 ^ 31

/-- glibc `atoi s` = `(int) strtol(s, NULL, 10)`. -/
def atoi (s : String) : Int := toInt32 (strtol10 s)

/-- The two environment variables the wrapper reads; `none` models an unset
variable (`getenv` returning `NULL`). -/
structure Env where
  file : Option String
  offs : Option String

/-- The static state of `offsetpreload.c`:
`offsetfd` (tri-state: `-3` = configuration unresolved, `-2` = resolved with
no tracked descriptor, otherwise the tracked descriptor), `offsetval`, and
`___open64`'s static `offsetpath` (`none` models `NULL`). -/
structure St where
  offsetfd : Int
  offsetval : Int
  offsetpath : Option String
deriving DecidableEq

/-- Initial values of the statics: `offsetfd = -3`, `offsetval = 0` (zero
initialization of a static `int`), `offsetpath = NULL`. -/
def initSt : St := { offsetfd := -3, offsetval := 0, offsetpath := none }

/-- The offset value the configuration resolver produces from the
environment: `atoi` of `OFFSETPRELOAD_OFFSET` when set, else the untouched
zero-initialized static. -/
def configuredOffset (env : Env) : Int :=
  match env.offs with
  | some v => atoi v
  | none => 0

/-- The one-time block at the top of `___open64`, guarded by
`offsetfd == -3`: set `offsetfd` to `-2`, read `OFFSETPRELOAD_FILE` into
`offsetpath`, and if `OFFSETPRELOAD_OFFSET` is set, `atoi` it into
`offsetval`. -/
def resolveConfig (env : Env) (s : St) : St :=
  if s.offsetfd = -3 then
    { offsetfd := -2
      offsetval := (match env.offs with | some v => atoi v | none => s.offsetval)
      offsetpath := env.file }
  else s

/-- The `pread64` wrapper: if `offsetfd == fd`, add `offsetval` to the
requested offset; delegate to the original `pread64` and return its value. -/
def pread64 {β : Type} (orig : Int → β → Nat → Int → Int) (s : St)
    (fd : Int) (buf : β) (count : Nat) (offset : Int) : Int :=
  orig fd buf count (if s.offsetfd = fd then offset + s.offsetval else offset)

/-- The `pwrite64` wrapper: same offset rule as `pread64`. -/
def pwrite64 {β : Type} (orig : Int → β → Nat → Int → Int) (s : St)
    (fd : Int) (buf : β) (count : Nat) (offset : Int) : Int :=
  orig fd buf count (if s.offsetfd = fd then offset + s.offsetval else offset)

/-- The common open helper `___open64`: resolve the configuration once, call
the original open with the arguments unchanged, then if the descriptor is
non-negative and the path is `strcmp`-equal to the recorded target path,
record the descriptor as the tracked one.  Returns the new state and the
delegate's return value. -/
def ___open64 (env : Env) (orig : String → Int → Int → Int → Int) (s : St)
    (path : String) (f1 f2 f3 : Int) : St × Int :=
  let s1 := resolveConfig env s
  let fd := orig path f1 f2 f3
  let s2 :=
    if 0 ≤ fd then
      if s1.offsetpath = some path then { s1 with offsetfd := fd } else s1
    else s1
  (s2, fd)

/-- The `open64` entry point: delegates to `___open64` with its own resolved
original implementation. -/
def open64 (env : Env) (orig : String → Int → Int → Int → Int) (s : St)
    (path : String) (f1 f2 f3 : Int) : St × Int :=
  ___open64 env orig s path f1 f2 f3

/-- The `__open64_2` entry point: same body as `open64`, with its own
resolved original implementation. -/
def __open64_2 (env : Env) (orig : String → Int → Int → Int → Int) (s : St)
    (path : String) (f1 f2 f3 : Int) : St × Int :=
  ___open64 env orig s path f1 f2 f3

/-- One observable call into the layer, with the delegate's descriptor
result supplied as an oracle for the open variants (reads and writes do not
change the static state, so their buffers/counts are not recorded). -/
inductive Event where
  | openE (path : String) (fdRes : Int)
  | open2E (path : String) (fdRes : Int)
  | preadE (fd : Int) (offset : Int)
  | pwriteE (fd : Int) (offset : Int)

/-- Effect of one call on the static state. -/
def step (env : Env) (s : St) : Event → St
  | Event.openE path fd => (___open64 env (fun _ _ _ _ => fd) s path 0 0 0).1
  | Event.open2E path fd => (___open64 env (fun _ _ _ _ => fd) s path 0 0 0).1
  | Event.preadE _ _ => s
  | Event.pwriteE _ _ => s

/-- Run a sequence of calls from state `s`. -/
def run (env : Env) (s : St) : List Event → St
  | [] => s
  | e :: tr => run env (step env s e) tr

/-- The descriptor currently tracked, if any: `offsetfd` when it is an
actual (non-negative) descriptor, `none` in the two sentinel states. -/
def trackedOf (s : St) : Option Int :=
  if 0 ≤ s.offsetfd then some s.offsetfd else none

/-- Whether an event is a call to one of the two open variants. -/
def isOpenEv : Event → Bool
  | Event.openE _ _ => true
  | Event.open2E _ _ => true
  | _ => false

/-- Whether a trace contains an open call. -/
def containsOpen : List Event → Bool
  | [] => false
  | e :: tr => isOpenEv e || containsOpen tr

/-- Number of times the one-time configuration block actually executes its
side effects along a trace (its guard `offsetfd == -3` holds at an open). -/
def resolveCount (env : Env) (s : St) : List Event → Nat
  | [] => 0
  | e :: tr =>
      (if s.offsetfd = -3 ∧ isOpenEv e = true then 1 else 0) +
        resolveCount env (step env s e) tr

/-- An event that captures the tracked slot: a successful open (either
variant) of the configured target path. -/
def matchingOpen (env : Env) : Event → Bool
  | Event.openE p fd => (env.file == some p) && decide (0 ≤ fd)
  | Event.open2E p fd => (env.file == some p) && decide (0 ≤ fd)
  | _ => false

/-- Whether a character list starts with a decimal digit. -/
def hasDigitStart : List Char → Bool
  | [] => false
  | c :: _ => isDigitC c

/-- Configuration has been resolved, and resolved from `env`: `offsetfd`
left the `-3` sentinel, `offsetpath` holds `OFFSETPRELOAD_FILE`, and
`offsetval` holds the parsed `OFFSETPRELOAD_OFFSET`. -/
def Resolved (env : Env) (s : St) : Prop :=
  s.offsetfd ≠ -3 ∧ s.offsetpath = env.file ∧ s.offsetval = configuredOffset env

/-! ### Basic lemmas about the state machine -/

lemma resolveConfig_of_ne (env : Env) (s : St) (h : s.offsetfd ≠ -3) :
    resolveConfig env s = s := by
  unfold resolveConfig
  rw [if_neg h]

lemma resolveConfig_init (env : Env) :
    Resolved env (resolveConfig env initSt) := by
  unfold resolveConfig initSt Resolved configuredOffset
  cases env.offs <;> simp

lemma resolveConfig_resolved (env : Env) (s : St)
    (h : s = initSt ∨ Resolved env s) :
    Resolved env (resolveConfig env s) := by
  rcases h with h | h
  · subst h; exact resolveConfig_init env
  · rw [resolveConfig_of_ne env s h.1]; exact h

lemma resolveConfig_offsetpath (env : Env) (s : St)
    (h : s = initSt ∨ Resolved env s) :
    (resolveConfig env s).offsetpath = env.file :=
  (resolveConfig_resolved env s h).2.1

lemma resolveConfig_offsetfd_ne (env : Env) (s : St) :
    (resolveConfig env s).offsetfd ≠ -3 := by
  unfold resolveConfig
  by_cases h : s.offsetfd = -3
  · rw [if_pos h]
    show (-2 : Int) ≠ -3
    decide
  · rw [if_neg h]; exact h

/-- Characterization of the state after an `openE` step. -/
lemma step_openE (env : Env) (s : St) (p : String) (fd : Int) :
    step env s (Event.openE p fd) =
      if 0 ≤ fd ∧ (resolveConfig env s).offsetpath = some p then
        { resolveConfig env s with offsetfd := fd }
      else resolveConfig env s := by
  show (___open64 env (fun _ _ _ _ => fd) s p 0 0 0).1 = _
  unfold ___open64
  by_cases h1 : (0:Int) ≤ fd <;>
    by_cases h2 : (resolveConfig env s).offsetpath = some p <;>
    simp [h1, h2]

/-- `__open64_2` drives the very same helper, so its step is identical. -/
lemma step_open2E (env : Env) (s : St) (p : String) (fd : Int) :
    step env s (Event.open2E p fd) = step env s (Event.openE p fd) := rfl

lemma step_open_offsetfd_ne (env : Env) (s : St) (p : String) (fd : Int) :
    (step env s (Event.openE p fd)).offsetfd ≠ -3 := by
  rw [step_openE]
  by_cases hc : 0 ≤ fd ∧ (resolveConfig env s).offsetpath = some p
  · rw [if_pos hc]
    show fd ≠ -3
    omega
  · rw [if_neg hc]
    exact resolveConfig_offsetfd_ne env s

lemma step_offsetfd_ne (env : Env) (s : St) (e : Event)
    (h : s.offsetfd ≠ -3) : (step env s e).offsetfd ≠ -3 := by
  cases e with
  | openE p fd => exact step_open_offsetfd_ne env s p fd
  | open2E p fd => rw [step_open2E]; exact step_open_offsetfd_ne env s p fd
  | preadE fd off => exact h
  | pwriteE fd off => exact h

lemma step_resolved (env : Env) (s : St) (e : Event) (h : Resolved env s) :
    Resolved env (step env s e) ∧
      (step env s e).offsetpath = s.offsetpath ∧
      (step env s e).offsetval = s.offsetval := by
  cases e with
  | preadE fd off => exact ⟨h, rfl, rfl⟩
  | pwriteE fd off => exact ⟨h, rfl, rfl⟩
  | openE p fd =>
      rw [step_openE, resolveConfig_of_ne env s h.1]
      by_cases hc : 0 ≤ fd ∧ s.offsetpath = some p
      · rw [if_pos hc]
        refine ⟨⟨?_, h.2.1, h.2.2⟩, rfl, rfl⟩
        show fd ≠ -3
        omega
      · rw [if_neg hc]
        exact ⟨h, rfl, rfl⟩
  | open2E p fd =>
      rw [step_open2E, step_openE, resolveConfig_of_ne env s h.1]
      by_cases hc : 0 ≤ fd ∧ s.offsetpath = some p
      · rw [if_pos hc]
        refine ⟨⟨?_, h.2.1, h.2.2⟩, rfl, rfl⟩
        show fd ≠ -3
        omega
      · rw [if_neg hc]
        exact ⟨h, rfl, rfl⟩

lemma step_init (env : Env) (e : Event) :
    step env initSt e = initSt ∨ Resolved env (step env initSt e) := by
  cases e with
  | preadE fd off => exact Or.inl rfl
  | pwriteE fd off => exact Or.inl rfl
  | openE p fd =>
      right
      rw [step_openE]
      have h := resolveConfig_init env
      by_cases hc : 0 ≤ fd ∧ (resolveConfig env initSt).offsetpath = some p
      · rw [if_pos hc]
        refine ⟨?_, h.2.1, h.2.2⟩
        show fd ≠ -3
        omega
      · rw [if_neg hc]
        exact h
  | open2E p fd =>
      right
      rw [step_open2E, step_openE]
      have h := resolveConfig_init env
      by_cases hc : 0 ≤ fd ∧ (resolveConfig env initSt).offsetpath = some p
      · rw [if_pos hc]
        refine ⟨?_, h.2.1, h.2.2⟩
        show fd ≠ -3
        omega
      · rw [if_neg hc]
        exact h

lemma run_append (env : Env) (s : St) (tr1 tr2 : List Event) :
    run env s (tr1 ++ tr2) = run env (run env s tr1) tr2 := by
  induction tr1 generalizing s with
  | nil => rfl
  | cons e tr1 ih =>
      show run env (step env s e) (tr1 ++ tr2) = _
      exact ih (step env s e)

lemma run_resolved (env : Env) (s : St) (tr : List Event)
    (h : Resolved env s) :
    Resolved env (run env s tr) ∧
      (run env s tr).offsetpath = s.offsetpath ∧
      (run env s tr).offsetval = s.offsetval := by
  induction tr generalizing s with
  | nil => exact ⟨h, rfl, rfl⟩
  | cons e tr ih =>
      have hs := step_resolved env s e h
      have h2 := ih (step env s e) hs.1
      exact ⟨h2.1, h2.2.1.trans hs.2.1, h2.2.2.trans hs.2.2⟩

lemma run_cases (env : Env) (s : St) (tr : List Event)
    (h : s = initSt ∨ Resolved env s) :
    run env s tr = initSt ∨ Resolved env (run env s tr) := by
  induction tr generalizing s with
  | nil => exact h
  | cons e tr ih =>
      apply ih (step env s e)
      rcases h with h | h
      · subst h; exact step_init env e
      · exact Or.inr (step_resolved env s e h).1

lemma run_init_cases (env : Env) (tr : List Event) :
    run env initSt tr = initSt ∨ Resolved env (run env initSt tr) :=
  run_cases env initSt tr (Or.inl rfl)

/-- A trace of non-capturing events keeps the tracked slot untouched. -/
lemma run_keep_fd (env : Env) (s : St) (tr : List Event)
    (hres : Resolved env s)
    (hne : ∀ e ∈ tr, matchingOpen env e = false) :
    (run env s tr).offsetfd = s.offsetfd := by
  induction tr generalizing s with
  | nil => rfl
  | cons e tr ih =>
      have hstep : (step env s e).offsetfd = s.offsetfd := by
        cases e with
        | preadE fd off => rfl
        | pwriteE fd off => rfl
        | openE p fd =>
            have hm := hne _ (List.mem_cons_self _ _)
            rw [step_openE, resolveConfig_of_ne env s hres.1]
            have hcond : ¬(0 ≤ fd ∧ s.offsetpath = some p) := by
              intro hc
              rw [hres.2.1] at hc
              simp [matchingOpen, hc.1, hc.2] at hm
            rw [if_neg hcond]
        | open2E p fd =>
            have hm := hne _ (List.mem_cons_self _ _)
            rw [step_open2E, step_openE, resolveConfig_of_ne env s hres.1]
            have hcond : ¬(0 ≤ fd ∧ s.offsetpath = some p) := by
              intro hc
              rw [hres.2.1] at hc
              simp [matchingOpen, hc.1, hc.2] at hm
            rw [if_neg hcond]
      have h2 := ih (step env s e) (step_resolved env s e hres).1
        (fun e2 he2 => hne e2 (List.mem_cons_of_mem _ he2))
      rw [show run env s (e :: tr) = run env (step env s e) tr from rfl, h2, hstep]

/-- A successful open of the configured target always lands the tracked
slot on the returned descriptor. -/
lemma step_matching_open (env : Env) (s : St) (p : String) (fd : Int)
    (hf : env.file = some p) (hfd : 0 ≤ fd)
    (h : s = initSt ∨ Resolved env s) :
    (step env s (Event.openE p fd)).offsetfd = fd ∧
      Resolved env (step env s (Event.openE p fd)) := by
  rw [step_openE]
  have hp : (resolveConfig env s).offsetpath = some p := by
    rw [resolveConfig_offsetpath env s h]; exact hf
  rw [if_pos ⟨hfd, hp⟩]
  have hres := resolveConfig_resolved env s h
  exact ⟨rfl, by show fd ≠ -3; omega, hres.2.1, hres.2.2⟩

/-- With `OFFSETPRELOAD_FILE` unset, the tracked slot never leaves the two
sentinel states. -/
lemma run_no_file (env : Env) (s : St) (tr : List Event)
    (hf : env.file = none)
    (hs : s = initSt ∨ Resolved env s)
    (hfd : s.offsetfd = -3 ∨ s.offsetfd = -2) :
    (run env s tr).offsetfd = -3 ∨ (run env s tr).offsetfd = -2 := by
  induction tr generalizing s with
  | nil => exact hfd
  | cons e tr ih =>
      have hstep : (step env s e).offsetfd = -3 ∨ (step env s e).offsetfd = -2 := by
        cases e with
        | preadE fd off => exact hfd
        | pwriteE fd off => exact hfd
        | openE p fd =>
            rw [step_openE]
            have hp : (resolveConfig env s).offsetpath = none := by
              rw [resolveConfig_offsetpath env s hs]; exact hf
            have hcond : ¬(0 ≤ fd ∧ (resolveConfig env s).offsetpath = some p) := by
              intro hc
              rw [hp] at hc
              exact Option.noConfusion hc.2
            rw [if_neg hcond]
            unfold resolveConfig
            by_cases h3 : s.offsetfd = -3
            · rw [if_pos h3]
              right
              rfl
            · rw [if_neg h3]
              exact hfd
        | open2E p fd =>
            rw [step_open2E, step_openE]
            have hp : (resolveConfig env s).offsetpath = none := by
              rw [resolveConfig_offsetpath env s hs]; exact hf
            have hcond : ¬(0 ≤ fd ∧ (resolveConfig env s).offsetpath = some p) := by
              intro hc
              rw [hp] at hc
              exact Option.noConfusion hc.2
            rw [if_neg hcond]
            unfold resolveConfig
            by_cases h3 : s.offsetfd = -3
            · rw [if_pos h3]
              right
              rfl
            · rw [if_neg h3]
              exact hfd
      have hs2 : step env s e = initSt ∨ Resolved env (step env s e) := by
        rcases hs with h | h
        · subst h; exact step_init env e
        · exact Or.inr (step_resolved env s e h).1
      exact ih (step env s e) hs2 hstep

/-! ### Lemmas about the one-time configuration block -/

lemma resolveCount_resolved (env : Env) (s : St) (tr : List Event)
    (h : s.offsetfd ≠ -3) : resolveCount env s tr = 0 := by
  induction tr generalizing s with
  | nil => rfl
  | cons e tr ih =>
      unfold resolveCount
      rw [if_neg (fun hc => h hc.1)]
      rw [ih (step env s e) (step_offsetfd_ne env s e h)]

lemma resolveCount_le_one (env : Env) (s : St) (tr : List Event) :
    resolveCount env s tr ≤ 1 := by
  induction tr generalizing s with
  | nil => exact Nat.zero_le 1
  | cons e tr ih =>
      unfold resolveCount
      by_cases hc : s.offsetfd = -3 ∧ isOpenEv e = true
      · rw [if_pos hc]
        have hne : (step env s e).offsetfd ≠ -3 := by
          cases e with
          | openE p fd => exact step_open_offsetfd_ne env s p fd
          | open2E p fd => rw [step_open2E]; exact step_open_offsetfd_ne env s p fd
          | preadE fd off => exact absurd hc.2 (by simp [isOpenEv])
          | pwriteE fd off => exact absurd hc.2 (by simp [isOpenEv])
        rw [resolveCount_resolved env _ tr hne]
      · rw [if_neg hc]
        have h2 := ih (step env s e)
        omega

lemma resolveCount_of_open (env : Env) (s : St) (tr : List Event)
    (h3 : s.offsetfd = -3) (ho : containsOpen tr = true) :
    resolveCount env s tr = 1 := by
  induction tr generalizing s with
  | nil => exact absurd ho (by decide)
  | cons e tr ih =>
      unfold resolveCount
      by_cases he : isOpenEv e = true
      · rw [if_pos ⟨h3, he⟩]
        have hne : (step env s e).offsetfd ≠ -3 := by
          cases e with
          | openE p fd => exact step_open_offsetfd_ne env s p fd
          | open2E p fd => rw [step_open2E]; exact step_open_offsetfd_ne env s p fd
          | preadE fd off => exact absurd he (by simp [isOpenEv])
          | pwriteE fd off => exact absurd he (by simp [isOpenEv])
        rw [resolveCount_resolved env _ tr hne]
      · have hstep : step env s e = s := by
          cases e with
          | openE p fd => exact absurd rfl he
          | open2E p fd => exact absurd rfl he
          | preadE fd off => rfl
          | pwriteE fd off => rfl
        have ho2 : containsOpen tr = true := by
          have : (isOpenEv e || containsOpen tr) = true := ho
          rcases Bool.or_eq_true_iff.1 this with h | h
          · exact absurd h he
          · exact h
        rw [if_neg (fun hc => he hc.2), hstep, ih s h3 ho2]

/-! ### Arithmetic facts about `atoi` -/

lemma atoi_eq (s : String) : atoi s = toInt32 (clampLong (decValue s)) := rfl

lemma toInt32_lb (v : Int) : -(2 ^ 31) ≤ toInt32 v := by
  unfold toInt32
  have h := Int.emod_nonneg (v + 2 ^ 31) (show (2:Int) ^ 32 ≠ 0 by norm_num)
  omega

lemma toInt32_ub (v : Int) : toInt32 v < 2 ^ 31 := by
  unfold toInt32
  have h := Int.emod_lt_of_pos (v + 2 ^ 31) (show (0:Int) < 2 ^ 32 by norm_num)
  omega

lemma toInt32_id (v : Int) (h1 : -(2 ^ 31) ≤ v) (h2 : v < 2 ^ 31) :
    toInt32 v = v := by
  unfold toInt32
  rw [Int.emod_eq_of_lt (by omega) (by norm_num; omega)]
  omega

lemma clampLong_id (v : Int) (h1 : -(2 ^ 63) ≤ v) (h2 : v ≤ 2 ^ 63 - 1) :
    clampLong v = v := by
  unfold clampLong longMax longMin
  rw [if_neg (by omega), if_neg (by omega)]

lemma clampLong_top (v : Int) (h : 2 ^ 63 - 1 < v) : clampLong v = 2 ^ 63 - 1 := by
  unfold clampLong longMax
  rw [if_pos (by omega)]

lemma clampLong_bot (v : Int) (h : v < -(2 ^ 63)) : clampLong v = -(2 ^ 63) := by
  unfold clampLong longMax longMin
  rw [if_neg (by omega), if_pos (by omega)]

lemma digitsToNat_no_digit (l : List Char) (h : hasDigitStart l = false) :
    digitsToNat l 0 = 0 := by
  cases l with
  | nil => rfl
  | cons c cs =>
      unfold digitsToNat
      rw [if_neg (by simpa [hasDigitStart] using h)]

lemma decValue_no_digit (s : String)
    (h : hasDigitStart ((signSplit (dropSpaces s.data)).2) = false) :
    decValue s = 0 := by
  unfold decValue
  simp [digitsToNat_no_digit _ h]

lemma atoi_no_digit (s : String)
    (h : hasDigitStart ((signSplit (dropSpaces s.data)).2) = false) :
    atoi s = 0 := by
  rw [atoi_eq, decValue_no_digit s h]
  decide

/-! ### The claims -/

/-- C1: once a descriptor `fd` is tracked — it was returned by a successful
open of the configured target path and no later matching open replaced it —
every subsequent `pread64`/`pwrite64` on `fd` delegates to the original
implementation with effective offset equal to the requested offset plus the
configured offset value, for every requested offset (including 0 and
negative values), and returns the delegate's value unchanged. -/
theorem c1_offset_injection (β : Type) (env : Env) (target : String)
    (tr1 tr2 : List Event) (fd : Int)
    (orig : Int → β → Nat → Int → Int) (buf : β) (count : Nat) (off : Int)
    (hf : env.file = some target) (hfd : 0 ≤ fd)
    (h2 : ∀ e ∈ tr2, matchingOpen env e = false) :
    (run env initSt (tr1 ++ Event.openE target fd :: tr2)).offsetfd = fd ∧
    pread64 orig (run env initSt (tr1 ++ Event.openE target fd :: tr2)) fd buf count off
      = orig fd buf count (off + configuredOffset env) ∧
    pwrite64 orig (run env initSt (tr1 ++ Event.openE target fd :: tr2)) fd buf count off
      = orig fd buf count (off + configuredOffset env) := by
  have hsplit : run env initSt (tr1 ++ Event.openE target fd :: tr2)
      = run env (step env (run env initSt tr1) (Event.openE target fd)) tr2 := by
    rw [run_append]
    rfl
  have h0 := run_init_cases env tr1
  have hm := step_matching_open env (run env initSt tr1) target fd hf hfd h0
  have hkeep := run_keep_fd env _ tr2 hm.2 h2
  have hres := run_resolved env _ tr2 hm.2
  have hfd2 : (run env initSt (tr1 ++ Event.openE target fd :: tr2)).offsetfd = fd := by
    rw [hsplit, hkeep, hm.1]
  have hval : (run env initSt (tr1 ++ Event.openE target fd :: tr2)).offsetval
      = configuredOffset env := by
    rw [hsplit]
    exact hres.1.2.2
  refine ⟨hfd2, ?_, ?_⟩
  · unfold pread64
    rw [if_pos hfd2, hval]
  · unfold pwrite64
    rw [if_pos hfd2, hval]

/-- C1 witness: the spec scenario.  `OFFSETPRELOAD_FILE=/img.bin`,
`OFFSETPRELOAD_OFFSET=1024`; open of `/img.bin` returns descriptor 5; a
read at requested offset 0 delegates at 1024 and a read at 2048 delegates
at 3072 (the delegate is instantiated with the function returning its
offset argument, so the returned value exhibits the delivered offset). -/
theorem c1_offset_injection_witness :
    (run ⟨some "/img.bin", some "1024"⟩ initSt [Event.openE "/img.bin" 5]).offsetfd = 5 ∧
    pread64 (fun _ _ _ o => o) (run ⟨some "/img.bin", some "1024"⟩ initSt
      [Event.openE "/img.bin" 5]) 5 () 100 0 = 1024 ∧
    pread64 (fun _ _ _ o => o) (run ⟨some "/img.bin", some "1024"⟩ initSt
      [Event.openE "/img.bin" 5]) 5 () 100 2048 = 3072 := by
  have h1 := c1_offset_injection Unit ⟨some "/img.bin", some "1024"⟩ "/img.bin" [] []
    5 (fun _ _ _ o => o) () 100 0 rfl (by decide)
    (fun e he => absurd he (List.not_mem_nil e))
  have h2 := c1_offset_injection Unit ⟨some "/img.bin", some "1024"⟩ "/img.bin" [] []
    5 (fun _ _ _ o => o) () 100 2048 rfl (by decide)
    (fun e he => absurd he (List.not_mem_nil e))
  exact ⟨h1.1, h1.2.1.trans (by decide), h2.2.1.trans (by decide)⟩

/-- C2 counterexample: the claim is false as stated for negative descriptor
arguments.  With `OFFSETPRELOAD_FILE` unset and `OFFSETPRELOAD_OFFSET=1024`,
after one open the tracker is in the no-match state (`offsetfd = -2`,
nothing tracked), yet a `pread64` on descriptor `-2` at requested offset 0
delegates at offset 1024, because `-2` is also the internal no-match
sentinel that `offsetfd == fd` compares against. -/
theorem c2_counterexample :
    (run ⟨none, some "1024"⟩ initSt [Event.openE "/a" 3]).offsetfd = -2 ∧
    trackedOf (run ⟨none, some "1024"⟩ initSt [Event.openE "/a" 3]) = none ∧
    pread64 (fun _ _ _ o => o) (run ⟨none, some "1024"⟩ initSt [Event.openE "/a" 3])
      (-2) () 100 0 = 1024 := by
  decide

/-- C2 amended: offset adjustment is applied exactly when the descriptor
argument equals the internal slot value `offsetfd`.  When a concrete
descriptor is tracked and equals the argument, the configured offset is
added; in the unresolved state every call is a passthrough (the offset
value is still zero, so even the call with descriptor `-3` that takes the
adjustment branch delivers the offset unchanged); in the no-match state
every call with descriptor other than the sentinel `-2` is a passthrough;
and every call whose descriptor differs from the slot value is a
passthrough. -/
theorem c2_amended (β : Type) (env : Env) (tr : List Event)
    (orig : Int → β → Nat → Int → Int) (fd : Int) (buf : β) (count : Nat) (off : Int) :
    (trackedOf (run env initSt tr) = some fd →
        pread64 orig (run env initSt tr) fd buf count off
          = orig fd buf count (off + (run env initSt tr).offsetval) ∧
        pwrite64 orig (run env initSt tr) fd buf count off
          = orig fd buf count (off + (run env initSt tr).offsetval)) ∧
    ((run env initSt tr).offsetfd = -3 →
        pread64 orig (run env initSt tr) fd buf count off = orig fd buf count off ∧
        pwrite64 orig (run env initSt tr) fd buf count off = orig fd buf count off) ∧
    ((run env initSt tr).offsetfd = -2 → fd ≠ -2 →
        pread64 orig (run env initSt tr) fd buf count off = orig fd buf count off ∧
        pwrite64 orig (run env initSt tr) fd buf count off = orig fd buf count off) ∧
    (fd ≠ (run env initSt tr).offsetfd →
        pread64 orig (run env initSt tr) fd buf count off = orig fd buf count off ∧
        pwrite64 orig (run env initSt tr) fd buf count off = orig fd buf count off) := by
  refine ⟨?_, ?_, ?_, ?_⟩
  · intro h
    have hfd : (run env initSt tr).offsetfd = fd := by
      unfold trackedOf at h
      by_cases h0 : 0 ≤ (run env initSt tr).offsetfd
      · rw [if_pos h0] at h
        exact Option.some_injective _ h
      · rw [if_neg h0] at h
        exact absurd h (by simp)
    unfold pread64 pwrite64
    rw [if_pos hfd]
    exact ⟨rfl, rfl⟩
  · intro h
    have hval : (run env initSt tr).offsetval = 0 := by
      rcases run_init_cases env tr with hi | hr
      · rw [hi]; rfl
      · exact absurd h hr.1
    unfold pread64 pwrite64
    rw [hval]
    by_cases hc : (run env initSt tr).offsetfd = fd
    · rw [if_pos hc, add_zero]
      exact ⟨rfl, rfl⟩
    · rw [if_neg hc]
      exact ⟨rfl, rfl⟩
  · intro h2 h3
    unfold pread64 pwrite64
    rw [if_neg (fun hh => h3 (h2 ▸ hh).symm)]
    exact ⟨rfl, rfl⟩
  · intro h4
    unfold pread64 pwrite64
    rw [if_neg (fun hh => h4 hh.symm)]
    exact ⟨rfl, rfl⟩

/-- C2 amended witness: with target `/t` and offset 5, after a matching
open returning descriptor 4, a pread on 4 at requested offset 100 delivers
offset 105. -/
theorem c2_amended_witness :
    trackedOf (run ⟨some "/t", some "5"⟩ initSt [Event.openE "/t" 4]) = some 4 ∧
    pread64 (fun _ _ _ o => o) (run ⟨some "/t", some "5"⟩ initSt [Event.openE "/t" 4])
      4 () 10 100 = 105 := by
  have h := (c2_amended Unit ⟨some "/t", some "5"⟩ [Event.openE "/t" 4]
    (fun _ _ _ o => o) 4 () 10 100).1 (by decide)
  exact ⟨by decide, h.1.trans (by decide)⟩

/-- C3: for every descriptor different from the value in the tracked slot,
`pread64` and `pwrite64` delegate to the original implementation with the
same descriptor, buffer, count and unmodified offset, and their result is
exactly the result of calling the underlying operation directly. -/
theorem c3_passthrough (β : Type) (env : Env) (tr : List Event)
    (orig : Int → β → Nat → Int → Int) (fd : Int) (buf : β) (count : Nat) (off : Int)
    (h : fd ≠ (run env initSt tr).offsetfd) :
    pread64 orig (run env initSt tr) fd buf count off = orig fd buf count off ∧
    pwrite64 orig (run env initSt tr) fd buf count off = orig fd buf count off := by
  unfold pread64 pwrite64
  rw [if_neg (fun hh => h hh.symm)]
  exact ⟨rfl, rfl⟩

/-- C3 witness: the spec scenario.  Same configuration as C1, `/other.bin`
opens as descriptor 6; a read on 6 at requested offset 500 delegates at 500
unchanged. -/
theorem c3_passthrough_witness :
    (6 : Int) ≠ (run ⟨some "/img.bin", some "1024"⟩ initSt
      [Event.openE "/img.bin" 5, Event.openE "/other.bin" 6]).offsetfd ∧
    pread64 (fun _ _ _ o => o) (run ⟨some "/img.bin", some "1024"⟩ initSt
      [Event.openE "/img.bin" 5, Event.openE "/other.bin" 6]) 6 () 100 500 = 500 := by
  refine ⟨by decide, ?_⟩
  exact (c3_passthrough Unit ⟨some "/img.bin", some "1024"⟩
    [Event.openE "/img.bin" 5, Event.openE "/other.bin" 6]
    (fun _ _ _ o => o) 6 () 100 500 (by decide)).1

/-- One open step updates the tracked slot by last-match-wins. -/
lemma trackedOf_step_open (env : Env) (s : St) (p : String) (fd : Int)
    (hs : s = initSt ∨ Resolved env s) :
    trackedOf (step env s (Event.openE p fd)) =
      if 0 ≤ fd ∧ env.file = some p then some fd else trackedOf s := by
  rw [step_openE]
  simp only [resolveConfig_offsetpath env s hs]
  by_cases hc : 0 ≤ fd ∧ env.file = some p
  · rw [if_pos hc, if_pos hc]
    unfold trackedOf
    show (if (0:Int) ≤ fd then some fd else none) = some fd
    rw [if_pos hc.1]
  · rw [if_neg hc, if_neg hc]
    unfold resolveConfig
    by_cases h3 : s.offsetfd = -3
    · rw [if_pos h3]
      unfold trackedOf
      show (if (0:Int) ≤ -2 then some (-2 : Int) else none)
        = if 0 ≤ s.offsetfd then some s.offsetfd else none
      rw [if_neg (by omega), if_neg (by omega)]
    · rw [if_neg h3]

/-- C4: the tracked descriptor is a single slot updated by last-match-wins:
an open (either variant) records its resulting descriptor exactly when the
requested path is string-equal to the configured target path and the
returned descriptor is non-negative, unconditionally replacing any previous
tracked value, and leaves the tracked value unchanged otherwise;
consequently, after two successful matching opens returning A then B with
A ≠ B, the slot holds B and I/O on A is no longer offset-adjusted. -/
theorem c4_single_slot (env : Env) (tr : List Event) (path : String) (fd : Int) :
    (trackedOf (run env initSt (tr ++ [Event.openE path fd])) =
      if 0 ≤ fd ∧ env.file = some path then some fd
      else trackedOf (run env initSt tr)) ∧
    (trackedOf (run env initSt (tr ++ [Event.open2E path fd])) =
      if 0 ≤ fd ∧ env.file = some path then some fd
      else trackedOf (run env initSt tr)) ∧
    (∀ (β : Type) (orig : Int → β → Nat → Int → Int) (buf : β) (count : Nat)
        (off : Int) (p : String) (A B : Int),
      env.file = some p → 0 ≤ A → 0 ≤ B → A ≠ B →
      (run env initSt (tr ++ [Event.openE p A, Event.openE p B])).offsetfd = B ∧
      pread64 orig (run env initSt (tr ++ [Event.openE p A, Event.openE p B]))
        A buf count off = orig A buf count off ∧
      pwrite64 orig (run env initSt (tr ++ [Event.openE p A, Event.openE p B]))
        A buf count off = orig A buf count off) := by
  have h0 := run_init_cases env tr
  refine ⟨?_, ?_, ?_⟩
  · rw [run_append]
    exact trackedOf_step_open env (run env initSt tr) path fd h0
  · rw [run_append]
    show trackedOf (step env (run env initSt tr) (Event.open2E path fd)) = _
    rw [step_open2E]
    exact trackedOf_step_open env (run env initSt tr) path fd h0
  · intro β orig buf count off p A B hp hA hB hAB
    have hsplit : run env initSt (tr ++ [Event.openE p A, Event.openE p B])
        = step env (step env (run env initSt tr) (Event.openE p A)) (Event.openE p B) := by
      rw [run_append]
      rfl
    have h1 := step_matching_open env (run env initSt tr) p A hp hA h0
    have h2 := step_matching_open env _ p B hp hB (Or.inr h1.2)
    have hfd : (run env initSt (tr ++ [Event.openE p A, Event.openE p B])).offsetfd = B := by
      rw [hsplit]; exact h2.1
    refine ⟨hfd, ?_, ?_⟩
    · unfold pread64
      rw [if_neg (by rw [hfd]; omega)]
    · unfold pwrite64
      rw [if_neg (by rw [hfd]; omega)]

/-- C4 witness: target `/img.bin`; matching opens return 5 then 7; the slot
holds 7 and a read on 5 at requested offset 42 delegates at 42 unchanged. -/
theorem c4_single_slot_witness :
    trackedOf (run ⟨some "/img.bin", none⟩ initSt
      ([] ++ [Event.openE "/img.bin" 5, Event.openE "/img.bin" 7])) = some 7 ∧
    pread64 (fun _ _ _ o => o) (run ⟨some "/img.bin", none⟩ initSt
      ([] ++ [Event.openE "/img.bin" 5, Event.openE "/img.bin" 7])) 5 () 100 42 = 42 := by
  have h := (c4_single_slot ⟨some "/img.bin", none⟩ [] "/x" 0).2.2 Unit
    (fun _ _ _ o => o) () 100 42 "/img.bin" 5 7 rfl (by decide) (by decide) (by decide)
  exact ⟨by decide, h.2.1.trans (by decide)⟩

/-- C5 counterexample: the claim is false as stated for every-descriptor
passthrough.  With `OFFSETPRELOAD_FILE` unset but `OFFSETPRELOAD_OFFSET=7`,
after one open (which resolves configuration into the no-match state,
`offsetfd = -2`) a pread on descriptor `-2` at requested offset 10
delegates at offset 17. -/
theorem c5_counterexample :
    (⟨none, some "7"⟩ : Env).file = none ∧
    trackedOf (run ⟨none, some "7"⟩ initSt [Event.openE "/x" 4]) = none ∧
    pread64 (fun _ _ _ o => o) (run ⟨none, some "7"⟩ initSt [Event.openE "/x" 4])
      (-2) () 5 10 = 17 := by
  decide

/-- C5 amended: with `OFFSETPRELOAD_FILE` unset, no descriptor is ever
recorded as tracked under any sequence of opens (the slot stays in the two
sentinel states), and every positional read and write whose descriptor is
not the internal sentinel `-2` — in particular every valid, non-negative
descriptor — is a pure passthrough with the offset unchanged; a call on
descriptor `-2` after the first open has the configured
`OFFSETPRELOAD_OFFSET` value added because `-2` is the no-match sentinel. -/
theorem c5_amended (β : Type) (env : Env) (tr : List Event)
    (orig : Int → β → Nat → Int → Int) (fd : Int) (buf : β) (count : Nat) (off : Int)
    (hf : env.file = none) :
    trackedOf (run env initSt tr) = none ∧
    ((run env initSt tr).offsetfd = -3 ∨ (run env initSt tr).offsetfd = -2) ∧
    (fd ≠ -2 →
      pread64 orig (run env initSt tr) fd buf count off = orig fd buf count off ∧
      pwrite64 orig (run env initSt tr) fd buf count off = orig fd buf count off) := by
  have hfd := run_no_file env initSt tr hf (Or.inl rfl) (Or.inl rfl)
  have htr : trackedOf (run env initSt tr) = none := by
    unfold trackedOf
    rcases hfd with h | h <;> rw [if_neg (by omega)]
  refine ⟨htr, hfd, ?_⟩
  intro hne
  rcases hfd with h | h
  · have hval : (run env initSt tr).offsetval = 0 := by
      rcases run_init_cases env tr with hi | hr
      · rw [hi]; rfl
      · exact absurd h hr.1
    unfold pread64 pwrite64
    rw [hval]
    by_cases hc : (run env initSt tr).offsetfd = fd
    · rw [if_pos hc, add_zero]; exact ⟨rfl, rfl⟩
    · rw [if_neg hc]; exact ⟨rfl, rfl⟩
  · unfold pread64 pwrite64
    rw [if_neg (by rw [h]; exact fun hh => hne hh.symm)]
    exact ⟨rfl, rfl⟩

/-- C5 amended witness: file unset, offset 9; after an open, a pread on the
(non-sentinel) descriptor 3 at requested offset 50 delegates at 50. -/
theorem c5_amended_witness :
    (3 : Int) ≠ -2 ∧
    trackedOf (run ⟨none, some "9"⟩ initSt [Event.openE "/z" 3]) = none ∧
    pread64 (fun _ _ _ o => o) (run ⟨none, some "9"⟩ initSt [Event.openE "/z" 3])
      3 () 4 50 = 50 := by
  have h := c5_amended Unit ⟨none, some "9"⟩ [Event.openE "/z" 3]
    (fun _ _ _ o => o) 3 () 4 50 rfl
  exact ⟨by decide, h.1, (h.2.2 (by decide)).1⟩

/-- C6 counterexample: the claim is false for strings with a numeric prefix
followed by non-numeric characters.  `atoi` parses the prefix, so
`OFFSETPRELOAD_OFFSET=12abc` makes the configured offset 12, not 0, and a
matched pread at requested offset 0 delegates at offset 12. -/
theorem c6_counterexample :
    (run ⟨some "/img.bin", some "12abc"⟩ initSt [Event.openE "/img.bin" 5]).offsetval = 12 ∧
    ¬(run ⟨some "/img.bin", some "12abc"⟩ initSt [Event.openE "/img.bin" 5]).offsetval = 0 ∧
    pread64 (fun _ _ _ o => o) (run ⟨some "/img.bin", some "12abc"⟩ initSt
      [Event.openE "/img.bin" 5]) 5 () 100 0 = 12 := by
  decide

/-- C6 amended: if `OFFSETPRELOAD_OFFSET` is absent, or its value has no
leading decimal digit after optional whitespace and an optional sign, the
configured offset value is zero for all subsequently matched I/O and the
parse failure raises no error (the parse is total); a value with a numeric
prefix followed by non-numeric characters instead yields the value of the
prefix (see the counterexample). -/
theorem c6_amended (env : Env) (tr : List Event) :
    (env.offs = none → (run env initSt tr).offsetval = 0) ∧
    (∀ str, env.offs = some str →
      hasDigitStart ((signSplit (dropSpaces str.data)).2) = false →
      atoi str = 0 ∧ (run env initSt tr).offsetval = 0) := by
  have hval : configuredOffset env = 0 → (run env initSt tr).offsetval = 0 := by
    intro h0
    rcases run_init_cases env tr with hi | hr
    · rw [hi]; rfl
    · rw [hr.2.2, h0]
  constructor
  · intro h
    apply hval
    simp [configuredOffset, h]
  · intro str hs hd
    have ha := atoi_no_digit str hd
    refine ⟨ha, hval ?_⟩
    simp [configuredOffset, hs, ha]

/-- C6 amended witness: `OFFSETPRELOAD_OFFSET=xyz` (no digit at the scan
position) parses to 0 and yields a zero configured offset after an open. -/
theorem c6_amended_witness :
    hasDigitStart ((signSplit (dropSpaces "xyz".data)).2) = false ∧
    atoi "xyz" = 0 ∧
    (run ⟨some "/a", some "xyz"⟩ initSt [Event.openE "/a" 2]).offsetval = 0 := by
  refine ⟨by decide, ?_, ?_⟩
  · exact ((c6_amended ⟨some "/a", some "xyz"⟩ [Event.openE "/a" 2]).2
      "xyz" rfl (by decide)).1
  · exact ((c6_amended ⟨some "/a", some "xyz"⟩ [Event.openE "/a" 2]).2
      "xyz" rfl (by decide)).2

/-- An open from the initial state always resolves the configuration. -/
lemma step_open_init_resolved (env : Env) (p : String) (f : Int) :
    Resolved env (step env initSt (Event.openE p f)) := by
  rcases step_init env (Event.openE p f) with h | h
  · have h2 := step_open_offsetfd_ne env initSt p f
    rw [h] at h2
    exact absurd rfl h2
  · exact h

/-- C7 counterexample: the claim is false as stated.  The environment is
read by the open wrappers only; if the first wrapped call of the process is
a `pread64`, that call consults the tracked-descriptor state (`offsetfd ==
fd` is evaluated) while the configuration is still unresolved: after the
call, `offsetfd` is still the unresolved sentinel `-3` and `offsetpath` is
still `NULL` even though `OFFSETPRELOAD_FILE` is set. -/
theorem c7_counterexample :
    (run ⟨some "/img.bin", some "1024"⟩ initSt [Event.preadE 7 0]).offsetfd = -3 ∧
    (run ⟨some "/img.bin", some "1024"⟩ initSt [Event.preadE 7 0]).offsetpath = none := by
  decide

/-- C7 amended: the environment is read at the first open call of the
process (either open variant), not at reads or writes; a positional read or
write issued while the configuration is still unresolved does consult the
tracker, but passes every requested offset to the original implementation
unchanged (the offset value is still zero at that point), for every
descriptor argument. -/
theorem c7_amended :
    (∀ (env : Env) (path : String) (fd : Int),
      Resolved env (run env initSt [Event.openE path fd]) ∧
      Resolved env (run env initSt [Event.open2E path fd])) ∧
    (∀ (β : Type) (env : Env) (tr : List Event)
        (orig : Int → β → Nat → Int → Int) (fd : Int) (buf : β) (count : Nat)
        (off : Int),
      (run env initSt tr).offsetfd = -3 →
      pread64 orig (run env initSt tr) fd buf count off = orig fd buf count off ∧
      pwrite64 orig (run env initSt tr) fd buf count off = orig fd buf count off) := by
  constructor
  · intro env path fd
    refine ⟨step_open_init_resolved env path fd, ?_⟩
    show Resolved env (step env initSt (Event.open2E path fd))
    rw [step_open2E]
    exact step_open_init_resolved env path fd
  · intro β env tr orig fd buf count off h
    have hval : (run env initSt tr).offsetval = 0 := by
      rcases run_init_cases env tr with hi | hr
      · rw [hi]; rfl
      · exact absurd h hr.1
    unfold pread64 pwrite64
    rw [hval]
    by_cases hc : (run env initSt tr).offsetfd = fd
    · rw [if_pos hc, add_zero]; exact ⟨rfl, rfl⟩
    · rw [if_neg hc]; exact ⟨rfl, rfl⟩

/-- C7 amended witness: before any open the state is unresolved, and even a
pread on descriptor `-3` (the unresolved sentinel itself) at requested
offset 8 delegates at 8; a first open resolves the configuration. -/
theorem c7_amended_witness :
    initSt.offsetfd = -3 ∧
    Resolved ⟨some "/f", some "3"⟩
      (run ⟨some "/f", some "3"⟩ initSt [Event.openE "/f" 4]) ∧
    pread64 (fun _ _ _ o => o) (run ⟨some "/f", some "3"⟩ initSt []) (-3) () 1 8 = 8 := by
  refine ⟨by decide, (c7_amended.1 ⟨some "/f", some "3"⟩ "/f" 4).1, ?_⟩
  exact (c7_amended.2 Unit ⟨some "/f", some "3"⟩ [] (fun _ _ _ o => o)
    (-3) () 1 8 (by decide)).1

/-- C8: the one-time configuration block runs its side effects at most once
per process, and exactly once as soon as the trace contains an open call;
once resolved, the target path and offset value never change for the rest
of the process and the tracker never returns to the unresolved state, no
matter how many wrapped calls follow and in what order. -/
theorem c8_idempotent :
    (∀ (env : Env) (tr : List Event), resolveCount env initSt tr ≤ 1) ∧
    (∀ (env : Env) (tr : List Event), containsOpen tr = true →
      resolveCount env initSt tr = 1) ∧
    (∀ (env : Env) (tr tr2 : List Event), (run env initSt tr).offsetfd ≠ -3 →
      (run env initSt (tr ++ tr2)).offsetpath = (run env initSt tr).offsetpath ∧
      (run env initSt (tr ++ tr2)).offsetval = (run env initSt tr).offsetval ∧
      (run env initSt (tr ++ tr2)).offsetfd ≠ -3) := by
  refine ⟨?_, ?_, ?_⟩
  · intro env tr
    exact resolveCount_le_one env initSt tr
  · intro env tr ho
    exact resolveCount_of_open env initSt tr rfl ho
  · intro env tr tr2 h
    have hres : Resolved env (run env initSt tr) := by
      rcases run_init_cases env tr with hi | hr
      · rw [hi] at h
        exact absurd rfl h
      · exact hr
    have h2 := run_resolved env (run env initSt tr) tr2 hres
    rw [run_append]
    exact ⟨h2.2.1, h2.2.2, h2.1.1⟩

/-- C8 witness: a trace with two opens and an interleaved read executes the
configuration block exactly once, and the offset value is unchanged by the
calls that follow the first open. -/
theorem c8_idempotent_witness :
    containsOpen [Event.openE "/a" 1, Event.preadE 1 0, Event.openE "/b" 2] = true ∧
    resolveCount ⟨some "/a", some "2"⟩ initSt
      [Event.openE "/a" 1, Event.preadE 1 0, Event.openE "/b" 2] = 1 ∧
    (run ⟨some "/a", some "2"⟩ initSt [Event.openE "/a" 1]).offsetfd ≠ -3 ∧
    (run ⟨some "/a", some "2"⟩ initSt
      ([Event.openE "/a" 1] ++ [Event.preadE 1 0, Event.openE "/b" 2])).offsetval =
      (run ⟨some "/a", some "2"⟩ initSt [Event.openE "/a" 1]).offsetval := by
  refine ⟨by decide, c8_idempotent.2.1 ⟨some "/a", some "2"⟩ _ (by decide),
    by decide, ?_⟩
  exact (c8_idempotent.2.2 ⟨some "/a", some "2"⟩ [Event.openE "/a" 1]
    [Event.preadE 1 0, Event.openE "/b" 2] (by decide)).2.1

/-- C9: both open variants call the original open with all arguments
unchanged and return the delegate's resulting descriptor or error value
unchanged, regardless of whether the path matched the target; and the
read/write wrappers return the delegate's value verbatim (the only change
is the offset argument), so the layer adds no error conditions of its
own. -/
theorem c9_open_passthrough (β : Type) (env : Env)
    (orig : String → Int → Int → Int → Int) (s : St) (path : String)
    (f1 f2 f3 : Int) (orig2 : Int → β → Nat → Int → Int) (fd : Int) (buf : β)
    (count : Nat) (off : Int) :
    (open64 env orig s path f1 f2 f3).2 = orig path f1 f2 f3 ∧
    (__open64_2 env orig s path f1 f2 f3).2 = orig path f1 f2 f3 ∧
    (∃ d : Int, pread64 orig2 s fd buf count off = orig2 fd buf count d ∧
                pwrite64 orig2 s fd buf count off = orig2 fd buf count d) :=
  ⟨rfl, rfl, ⟨if s.offsetfd = fd then off + s.offsetval else off, rfl, rfl⟩⟩

/-- C10 counterexample: the claim's "reduced as by conversion modulo 2^32"
fails for configured values beyond the 64-bit long range, because strtol
saturates to LONG_MAX before the int conversion: `atoi` of the decimal
string for 2^63 stores -1, while reduction of 2^63 modulo 2^32 gives 0. -/
theorem c10_counterexample :
    decValue "9223372036854775808" = 2 ^ 63 ∧
    atoi "9223372036854775808" = -1 ∧
    toInt32 (2 ^ 63) = 0 ∧
    ¬atoi "9223372036854775808" = toInt32 (decValue "9223372036854775808") := by
  decide

/-- C10 amended: the configured offset is parsed and stored as a 32-bit
signed integer before being added to the 64-bit requested offset.  Every
configured value in the 32-bit signed range is stored exactly; a value
outside that range is never stored exactly; a value outside the 32-bit
range but inside the 64-bit long range is reduced as by conversion modulo
2^32; a value beyond the long range saturates to the long bound before
that conversion.  The stored value is what a first open installs as the
offset state. -/
theorem c10_amended (str : String) (env : Env) (tr : List Event)
    (path : String) (fd : Int) :
    (-(2 ^ 31) ≤ decValue str ∧ decValue str < 2 ^ 31 → atoi str = decValue str) ∧
    (¬(-(2 ^ 31) ≤ decValue str ∧ decValue str < 2 ^ 31) → atoi str ≠ decValue str) ∧
    (¬(-(2 ^ 31) ≤ decValue str ∧ decValue str < 2 ^ 31) →
      -(2 ^ 63) ≤ decValue str → decValue str ≤ 2 ^ 63 - 1 →
      atoi str = toInt32 (decValue str)) ∧
    (2 ^ 63 - 1 < decValue str → atoi str = toInt32 (2 ^ 63 - 1)) ∧
    (decValue str < -(2 ^ 63) → atoi str = toInt32 (-(2 ^ 63))) ∧
    (env.offs = some str →
      (run env initSt (Event.openE path fd :: tr)).offsetval = atoi str) := by
  refine ⟨?_, ?_, ?_, ?_, ?_, ?_⟩
  · intro h
    rw [atoi_eq, clampLong_id _ (by omega) (by omega), toInt32_id _ h.1 h.2]
  · intro h
    have h1 := toInt32_lb (clampLong (decValue str))
    have h2 := toInt32_ub (clampLong (decValue str))
    rw [atoi_eq]
    omega
  · intro h h1 h2
    rw [atoi_eq, clampLong_id _ h1 h2]
  · intro h
    rw [atoi_eq, clampLong_top _ h]
  · intro h
    rw [atoi_eq, clampLong_bot _ h]
  · intro hs
    have hres := run_resolved env _ tr (step_open_init_resolved env path fd)
    show (run env (step env initSt (Event.openE path fd)) tr).offsetval = atoi str
    rw [hres.2.2, (step_open_init_resolved env path fd).2.2]
    simp [configuredOffset, hs]

/-- C10 amended witness: 2147483648 = 2^31 is outside the 32-bit signed
range; atoi stores its reduction -2147483648, and an open installs that
value as the offset state. -/
theorem c10_amended_witness :
    ¬(-(2 ^ 31) ≤ decValue "2147483648" ∧ decValue "2147483648" < 2 ^ 31) ∧
    atoi "2147483648" = toInt32 (decValue "2147483648") ∧
    atoi "2147483648" = -2147483648 ∧
    (run ⟨some "/i", some "2147483648"⟩ initSt
      [Event.openE "/i" 3]).offsetval = atoi "2147483648" := by
  have h := c10_amended "2147483648" ⟨some "/i", some "2147483648"⟩ [] "/i" 3
  refine ⟨by decide, ?_, by decide, ?_⟩
  · exact h.2.2.1 (by decide) (by decide) (by decide)
  · exact h.2.2.2.2.2 rfl

end OffsetPreload
